import Mathlib

/-!
Verification of the statement-ingestion parser of the `roi` repository
(`src/main.rs`).  The Rust source is shallowly embedded: `f64` values are
idealised as exact rationals (`ℚ`); the transcendental `powf` used by
`annualized_roi` is idealised as real exponentiation (`Real.rpow`);
`chrono::NaiveDate` is a year/month/day triple compared through its
civil-calendar day number, matching chrono's chronological order on valid
dates.  CSV input is modelled after the `csv` reader configured in
`parse_positions_csv` (`has_headers(false)`, `Trim::All`, `flexible`): a file
is a list of records, each record a list of trimmed cell strings; for the
concrete files used below the cells are produced by `csvCells`, a
comma-splitter plus trim, which agrees with the reader on quote-free lines.
Whitespace is modelled at ASCII granularity and the `f64` parser on finite
decimal literals (the `inf`/`nan` spellings accepted by Rust have no image
in `ℚ` and are treated as unparseable).
-/

set_option maxRecDepth 8000

/- The kernel can evaluate the arithmetic of `Rat`, but the elaborator keeps
the four core operations behind an `irreducible` marker; concrete runs of
the parser below are settled by `decide`, which needs them unfolded. -/
set_option allowUnsafeReducibility true
attribute [local semireducible] Rat.mul Rat.add Rat.sub Rat.inv

instance {e a : Type} [DecidableEq e] [DecidableEq a] : DecidableEq (Except e a) := fun x y =>
  match x, y with
  | Except.error u, Except.error v =>
    if h : u = v then isTrue (by rw [h]) else isFalse (by simp [h])
  | Except.ok u, Except.ok v =>
    if h : u = v then isTrue (by rw [h]) else isFalse (by simp [h])
  | Except.error _, Except.ok _ => isFalse (by simp)
  | Except.ok _, Except.error _ => isFalse (by simp)

/-! ### ASCII string primitives (models of the `str` methods used) -/

/-- ASCII whitespace test used by the model of `str::trim`. -/
def isWsChar (c : Char) : Bool :=
  c == ' ' || c == '\t' || c == '\n' || c == '\r'

/-- Drop leading whitespace characters. -/
def dropWsLeft : List Char → List Char
  | [] => []
  | c :: cs => if isWsChar c then dropWsLeft cs else c :: cs

/-- Model of `str::trim`: drop leading and trailing whitespace. -/
def trimChars (l : List Char) : List Char :=
  ((dropWsLeft ((dropWsLeft l).reverse)).reverse)

/-- String-level trim. -/
def strTrim (s : String) : String :=
  ⟨trimChars s.data⟩

/-- Model of `u8/char::to_ascii_lowercase` on one character. -/
def asciiLowerChar (c : Char) : Char :=
  if 'A' ≤ c ∧ c ≤ 'Z' then Char.ofNat (c.toNat + 32) else c

/-- Model of `char::to_ascii_uppercase` on one character. -/
def asciiUpperChar (c : Char) : Char :=
  if 'a' ≤ c ∧ c ≤ 'z' then Char.ofNat (c.toNat - 32) else c

/-- Model of `str::to_ascii_lowercase`. -/
def asciiLower (s : String) : String :=
  ⟨s.data.map asciiLowerChar⟩

/-- Model of `str::to_ascii_uppercase`. -/
def asciiUpper (s : String) : String :=
  ⟨s.data.map asciiUpperChar⟩

/-- Does `pat` occur at the head of `l`?  (model of `str::starts_with`). -/
def matchesAt : List Char → List Char → Bool
  | [], _ => true
  | _ :: _, [] => false
  | p :: ps, c :: cs => p == c && matchesAt ps cs

/-- Does `pat` occur anywhere in `l`?  (model of `str::contains` with a
string pattern). -/
def containsSeq (pat : List Char) : List Char → Bool
  | [] => matchesAt pat []
  | c :: cs => matchesAt pat (c :: cs) || containsSeq pat cs

/-- String-level substring test. -/
def containsSub (s pat : String) : Bool :=
  containsSeq pat.data s.data

/-- String-level test for a leading pattern. -/
def startsWithStr (s pat : String) : Bool :=
  matchesAt pat.data s.data

/-- Split a character list on a separator, keeping empty groups. -/
def splitOnChar (sep : Char) : List Char → List (List Char)
  | [] => [[]]
  | c :: cs =>
    if c == sep then [] :: splitOnChar sep cs
    else
      match splitOnChar sep cs with
      | [] => [[c]]
      | g :: gs => (c :: g) :: gs

/-- Cells of one quote-free CSV line as produced by the reader of
`parse_positions_csv` (`Trim::All`): split on commas, trim each cell. -/
def csvCells (line : String) : List String :=
  (splitOnChar ',' line.data).map (fun l => ⟨trimChars l⟩)

/-! ### Numeric literals (model of `parse_number`, main.rs:444-457) -/

/-- Digit test. -/
def isDigitChar (c : Char) : Bool :=
  '0' ≤ c && c ≤ '9'

/-- Longest leading run of digits, as digit values, plus the rest. -/
def takeDigits : List Char → (List Nat × List Char)
  | [] => ([], [])
  | c :: cs =>
    if isDigitChar c then
      let (ds, rest) := takeDigits cs
      ((c.toNat - '0'.toNat) :: ds, rest)
    else ([], c :: cs)

/-- Value of a digit list read most-significant first. -/
def natOfDigits (ds : List Nat) : Nat :=
  ds.foldl (fun a d => a * 10 + d) 0

/-- Exponent suffix of an `f64` literal (``e``/``E``, optional sign, digits);
`mant` is the already-parsed signed mantissa. -/
def parseExpPart (mant : ℚ) (rest : List Char) : Option ℚ :=
  match rest with
  | [] => some mant
  | e :: r =>
    if e == 'e' || e == 'E' then
      let (epos, r2) := match r with
        | '-' :: rr => (false, rr)
        | '+' :: rr => (true, rr)
        | rr => (true, rr)
      let (eds, r3) := takeDigits r2
      if eds = [] ∨ r3 ≠ [] then none
      else if epos then some (mant * 10 ^ natOfDigits eds)
      else some (mant / 10 ^ natOfDigits eds)
    else none

/-- Finite-decimal fragment of Rust's `f64::from_str` grammar: optional
sign, digits with an optional point (at least one digit), optional
exponent.  Values are exact rationals; the `inf`/`infinity`/`nan`
spellings are outside the idealisation and yield `none`. -/
def parseDecimal (l : List Char) : Option ℚ :=
  let (sign, rest) : ℚ × List Char := match l with
    | '-' :: r => (-1, r)
    | '+' :: r => (1, r)
    | r => (1, r)
  let (intDs, rest1) := takeDigits rest
  match rest1 with
  | '.' :: rest2 =>
    let (fracDs, rest3) := takeDigits rest2
    if intDs = [] ∧ fracDs = [] then none
    else
      parseExpPart
        (sign * (natOfDigits (intDs ++ fracDs) : ℚ) / (10 ^ fracDs.length : ℚ))
        rest3
  | _ =>
    if intDs = [] then none
    else parseExpPart (sign * (natOfDigits intDs : ℚ)) rest1

/-- Model of `parse_number` (main.rs:444-457): trim; empty or `"--"` is
`none` (missing); strip every comma, dollar sign and space; parse the rest
as a decimal literal. -/
def parseNumber (raw : String) : Option ℚ :=
  let trimmed := trimChars raw.data
  if trimmed = [] ∨ trimmed = ['-', '-'] then none
  else
    parseDecimal
      (trimmed.filter (fun c => !(c == ',' || c == '$' || c == ' ')))

/-! ### Dates (model of `chrono::NaiveDate` and `parse_date_any`) -/

/-- Calendar date, the model of `chrono::NaiveDate`.  The parser below only
constructs valid dates. -/
structure NDate where
  year : Int
  month : Nat
  day : Nat
deriving DecidableEq, Repr

/-- Leap-year test of the proleptic Gregorian calendar. -/
def isLeapYear (y : Int) : Bool :=
  (y % 4 == 0 && y % 100 != 0) || y % 400 == 0

/-- Number of days of a month. -/
def daysInMonth (y : Int) (m : Nat) : Nat :=
  if m = 2 then (if isLeapYear y then 29 else 28)
  else if m = 4 ∨ m = 6 ∨ m = 9 ∨ m = 11 then 30
  else 31

/-- Day number of a civil date relative to 1970-01-01 (the standard
`days_from_civil` algorithm, with floor division).  Differences of day
numbers model `(d2 - d1).num_days()` and the order models chrono's
chronological `Ord`. -/
def toDayNumber (d : NDate) : Int :=
  let yAdj : Int := if d.month ≤ 2 then d.year - 1 else d.year
  let era : Int := Int.fdiv yAdj 400
  let yoe : Int := yAdj - era * 400
  let mp : Nat := (d.month + 9) % 12
  let doy : Int := ((153 * mp + 2) / 5 : Nat) + (d.day : Int) - 1
  let doe : Int := yoe * 365 + Int.fdiv yoe 4 - Int.fdiv yoe 100 + doy
  era * 146097 + doe - 719468

/-- Build a date, validating ranges as `chrono` does. -/
def mkValidDate (y : Int) (m d : Nat) : Option NDate :=
  if 1 ≤ m ∧ m ≤ 12 ∧ 1 ≤ d ∧ d ≤ daysInMonth y m then some ⟨y, m, d⟩
  else none

/-- A component of a date literal: non-empty, all digits, bounded width. -/
def dateComp (maxLen : Nat) (l : List Char) : Option Nat :=
  if l ≠ [] ∧ l.length ≤ maxLen ∧ l.all isDigitChar then
    some (natOfDigits (l.map (fun c => c.toNat - '0'.toNat)))
  else none

/-- ISO form `%Y-%m-%d` of `parse_date_any` (main.rs:437-442). -/
def parseIsoDate (l : List Char) : Option NDate :=
  match splitOnChar '-' l with
  | [ys, ms, ds] =>
    match dateComp 4 ys, dateComp 2 ms, dateComp 2 ds with
    | some y, some m, some d => mkValidDate (y : Int) m d
    | _, _, _ => none
  | _ => none

/-- US form `%m/%d/%Y` of `parse_date_any`. -/
def parseUsDate (l : List Char) : Option NDate :=
  match splitOnChar '/' l with
  | [ms, ds, ys] =>
    match dateComp 4 ys, dateComp 2 ms, dateComp 2 ds with
    | some y, some m, some d => mkValidDate (y : Int) m d
    | _, _, _ => none
  | _ => none

/-- Model of `parse_date_any` (main.rs:437-442): trim, try `%Y-%m-%d`,
then `%m/%d/%Y`. -/
def parseDateAny (raw : String) : Option NDate :=
  let t := trimChars raw.data
  match parseIsoDate t with
  | some d => some d
  | none => parseUsDate t

/-! ### The trade record (struct `Position`, main.rs:242-286) -/

/-- Model of struct `Position`: numeric fields as exact rationals, dates as
calendar dates. -/
structure Position where
  ticker : String
  cost_per_share : ℚ
  quantity : ℚ
  sale_price : ℚ
  purchase_date : NDate
  sale_date : NDate
deriving DecidableEq, Repr

/-- Model of `Position::invested`. -/
def Position.invested (p : Position) : ℚ :=
  p.cost_per_share * p.quantity

/-- Model of `Position::proceeds`. -/
def Position.proceeds (p : Position) : ℚ :=
  p.sale_price * p.quantity

/-- Model of `Position::roi_value` (the profit). -/
def Position.roi_value (p : Position) : ℚ :=
  p.proceeds - p.invested

/-- Model of `Position::roi_pct` (the percentage return). -/
def Position.roi_pct (p : Position) : ℚ :=
  p.roi_value / p.invested

/-- Model of `Position::days_held`: day difference floored at one. -/
def Position.days_held (p : Position) : Int :=
  max (toDayNumber p.sale_date - toDayNumber p.purchase_date) 1

/-- Model of `Position::annualized_roi` (main.rs:278-285): the implied
multiple `proceeds/invested`; exactly `-1` when it is non-positive,
otherwise `multiple ^ (1/years) - 1` with `years = days_held/365`
(`powf` idealised as real exponentiation). -/
noncomputable def Position.annualized_roi (p : Position) : ℝ :=
  if (p.proceeds : ℝ) / (p.invested : ℝ) ≤ 0 then -1
  else
    ((p.proceeds : ℝ) / (p.invested : ℝ)) ^
      ((1 : ℝ) / ((p.days_held : ℝ) / 365)) - 1

/-! ### Primitive field parsers of the importer -/

/-- Model of `parse_ticker` (main.rs:429-435): trim; empty is an error;
otherwise upper-case. -/
def parseTicker (raw : String) : Except String String :=
  let trimmed := strTrim raw
  if trimmed = "" then Except.error "Ticker cannot be empty"
  else Except.ok (asciiUpper trimmed)

/-- Error text of `parse_f64` (main.rs:421-423). -/
def invalidNumberMsg (label : String) : String :=
  "Invalid " ++ label

/-- Error text of `parse_date` (main.rs:425-427). -/
def invalidDateMsg (label : String) : String :=
  "Invalid " ++ label ++ ", expected YYYY-MM-DD or MM/DD/YYYY"

/-- Line-number prefixing applied to every row-level error
(`format!("Line {line_no}: {e}")`). -/
def lineError (n : Nat) (msg : String) : String :=
  "Line " ++ toString n ++ ": " ++ msg

/-! ### Header detection (struct `HeaderIdx` and `detect_header`,
main.rs:462-525) -/

/-- Model of struct `HeaderIdx`: the six semantic column roles. -/
structure HeaderIdx where
  ticker : Nat
  cost : Nat
  qty : Nat
  sale_price : Nat
  buy_date : Nat
  sale_date : Nat
deriving DecidableEq, Repr

/-- Model of `sanitize_header` (main.rs:472-477): keep ASCII alphanumerics,
lower-case. -/
def sanitizeHeader (s : String) : String :=
  ⟨(s.data.filter Char.isAlphanum).map asciiLowerChar⟩

/-- Accumulator of the `detect_header` scan. -/
structure DetectAcc where
  t : Option Nat
  cost : Option Nat
  qty : Option Nat
  sale : Option Nat
  buyD : Option Nat
  dateCols : List Nat
deriving Repr

/-- One cell of the `detect_header` scan (the `match h.as_str()` arms,
main.rs:488-499); a later matching column overwrites an earlier one, and
generic date columns are collected in order. -/
def detectStep (acc : DetectAcc) (iRaw : Nat × String) : DetectAcc :=
  let h := sanitizeHeader iRaw.2
  if h = "symbol" ∨ h = "ticker" then { acc with t := some iRaw.1 }
  else if h = "qty" ∨ h = "qtynumber" ∨ h = "qtyshare" ∨ h = "quantity" ∨
      h = "qtyshares" then { acc with qty := some iRaw.1 }
  else if h = "costshare" ∨ h = "costpershare" then
    { acc with cost := some iRaw.1 }
  else if h = "priceshare" ∨ h = "pricepershare" ∨ h = "saleprice" ∨
      h = "sellprice" then { acc with sale := some iRaw.1 }
  else if h = "dateadded" ∨ h = "purchasedate" ∨ h = "buydate" then
    { acc with buyD := some iRaw.1 }
  else if h = "date" ∨ h = "saledate" ∨ h = "selldate" then
    { acc with dateCols := acc.dateCols ++ [iRaw.1] }
  else acc

/-- Model of `detect_header` (main.rs:479-525): scan the cells, then resolve
the date roles — a missing purchase date takes the first generic date
column, a missing sale date takes the second generic date column if it
exists, else the first; a header is found only if all six roles resolved. -/
def detectHeader (parts : List String) : Option HeaderIdx :=
  let acc := parts.enum.foldl detectStep ⟨none, none, none, none, none, []⟩
  let buyD := match acc.buyD with
    | some i => some i
    | none => acc.dateCols.head?
  let saleD := match acc.dateCols.get? 1 with
    | some i => some i
    | none => acc.dateCols.head?
  match acc.t, acc.cost, acc.qty, acc.sale, buyD, saleD with
  | some t, some c, some q, some s, some bd, some sd =>
    some ⟨t, c, q, s, bd, sd⟩
  | _, _, _, _, _, _ => none

/-! ### The statement parser (`parse_positions_csv`, main.rs:459-724) -/

/-- Model of the mutable loop state of `parse_positions_csv`
(main.rs:533-536): the detected header, the accumulated positions, the
"inside the TAXABLE G&L DETAILS section" flag and the carried ticker. -/
structure PState where
  headerIdx : Option HeaderIdx
  positions : List Position
  inDetails : Bool
  currentTicker : Option String
deriving DecidableEq, Repr

/-- Initial loop state. -/
def initState : PState :=
  ⟨none, [], false, none⟩

/-- Cell access `get` of the loop (main.rs:581): out-of-range columns read
as the empty string. -/
def cellAt (fields : List String) (i : Nat) : String :=
  fields.getD i ""

/-- Section-boundary test (main.rs:546-547): the cells joined by single
spaces, lower-cased, contain the marker phrase. -/
def containsMarker (fields : List String) : Bool :=
  containsSub (asciiLower (String.intercalate " " fields)) "taxable g&l details"

/-- Summary-row test (main.rs:558-570): a single-cell row whose trimmed,
lower-cased cell contains `total` or `subtotal`, or any row whose first
cell equals `total` or `subtotal`. -/
def isSummarySkip (fields : List String) : Bool :=
  (match fields with
    | [f] =>
      let first := asciiLower (strTrim f)
      containsSub first "total" || containsSub first "subtotal"
    | _ => false)
  ||
  (match fields.head? with
    | some f =>
      let firstLower := asciiLower (strTrim f)
      firstLower == "total" || firstLower == "subtotal"
    | none => false)

/-- Guard of the ticker-context update (main.rs:603-606): the ticker cell is
non-empty, not the sentinel, and does not start with `sell` once
lower-cased. -/
def tickerCellActive (rawTicker : String) : Bool :=
  rawTicker ≠ "" && rawTicker ≠ "--" &&
    !(startsWithStr (asciiLower rawTicker) "sell")

/-- Pure value of the ticker-context update: the new carried ticker
(`parse_ticker` upper-cases; on an inactive cell the old context is kept). -/
def tickerNext (cur : Option String) (rawTicker : String) : Option String :=
  if tickerCellActive rawTicker then some (asciiUpper (strTrim rawTicker))
  else cur

/-- Model of the ticker-context update of the header path
(main.rs:601-610), including the (unreachable) error propagation of
`parse_ticker`. -/
def updateTicker (n : Nat) (cur : Option String) (rawTicker : String) :
    Except String (Option String) :=
  if tickerCellActive rawTicker then
    match parseTicker rawTicker with
    | Except.error e => Except.error (lineError n e)
    | Except.ok t => Except.ok (some t)
  else Except.ok cur

/-- Missing-field test `required_missing` (main.rs:612-615): empty after
trim, or the sentinel `--`. -/
def requiredMissing (s : String) : Bool :=
  let v := strTrim s
  v = "" || v = "--"

/-- Are any of the five required cells missing under header `h`? -/
def missingAny (h : HeaderIdx) (fields : List String) : Bool :=
  requiredMissing (cellAt fields h.cost) ||
  requiredMissing (cellAt fields h.qty) ||
  requiredMissing (cellAt fields h.sale_price) ||
  requiredMissing (cellAt fields h.buy_date) ||
  requiredMissing (cellAt fields h.sale_date)

/-- Part of the header-driven row handler after the ticker-context update
(main.rs:612-657), on the updated state `st1`: skip the row if a required
field is missing or no context exists; parse the five fields, abort on a
parse failure or a date-order violation; otherwise append the record. -/
def headerRowCore (n : Nat) (h : HeaderIdx) (fields : List String)
    (st1 : PState) : Except String PState :=
  if missingAny h fields then Except.ok st1
    else
      match st1.currentTicker with
      | none => Except.ok st1
      | some t =>
        match parseNumber (cellAt fields h.cost) with
        | none => Except.error (lineError n (invalidNumberMsg "cost/share"))
        | some cost =>
        match parseNumber (cellAt fields h.qty) with
        | none => Except.error (lineError n (invalidNumberMsg "quantity"))
        | some qty =>
        match parseNumber (cellAt fields h.sale_price) with
        | none => Except.error (lineError n (invalidNumberMsg "sale price"))
        | some salePrice =>
        match parseDateAny (cellAt fields h.buy_date) with
        | none => Except.error (lineError n (invalidDateMsg "purchase date"))
        | some purchaseDate =>
        match parseDateAny (cellAt fields h.sale_date) with
        | none => Except.error (lineError n (invalidDateMsg "sale date"))
        | some saleDate =>
        if toDayNumber saleDate < toDayNumber purchaseDate then
          Except.error (lineError n "sale date cannot be before purchase date")
        else
          Except.ok { st1 with positions := st1.positions ++
            [⟨t, cost, qty, salePrice, purchaseDate, saleDate⟩] }

/-- Header-driven row handler (main.rs:600-657): update the ticker context
from the ticker cell (main.rs:601-610), then run `headerRowCore` on the
updated state. -/
def headerRow (n : Nat) (h : HeaderIdx) (fields : List String) (st : PState) :
    Except String PState :=
  let rawTicker := strTrim (cellAt fields h.ticker)
  match updateTicker n st.currentTicker rawTicker with
  | Except.error e => Except.error e
  | Except.ok newTicker => headerRowCore n h fields { st with currentTicker := newTicker }

/-- Positional fallback row handler, a transcription of main.rs:659-718.
This block is unreachable in the source: every loop iteration with
`header_idx == None` ends in `continue` inside main.rs:572-579, and every
iteration with a detected header ends in `continue` or `return` inside the
header branch (main.rs:600-657), so control never falls through to the
fallback.  It is transcribed here to state what the dead code would do. -/
def fallbackRow (n : Nat) (fields : List String) (st : PState) :
    Except String PState :=
  if fields.length < 6 then Except.ok st
  else
    let rawTicker := strTrim (cellAt fields 0)
    if tickerCellActive rawTicker then
      match parseTicker rawTicker with
      | Except.error e => Except.error (lineError n e)
      | Except.ok t => Except.ok { st with currentTicker := some t }
    else if requiredMissing (cellAt fields 1) ||
        requiredMissing (cellAt fields 2) ||
        requiredMissing (cellAt fields 3) ||
        requiredMissing (cellAt fields 4) ||
        requiredMissing (cellAt fields 5) then Except.ok st
    else
      match st.currentTicker with
      | none => Except.ok st
      | some t =>
        match parseNumber (cellAt fields 1) with
        | none => Except.error (lineError n (invalidNumberMsg "cost/share"))
        | some cost =>
        match parseNumber (cellAt fields 2) with
        | none => Except.error (lineError n (invalidNumberMsg "quantity"))
        | some qty =>
        match parseNumber (cellAt fields 3) with
        | none => Except.error (lineError n (invalidNumberMsg "sale price"))
        | some salePrice =>
        match parseDateAny (cellAt fields 4) with
        | none => Except.error (lineError n (invalidDateMsg "purchase date"))
        | some purchaseDate =>
        match parseDateAny (cellAt fields 5) with
        | none => Except.error (lineError n (invalidDateMsg "sale date"))
        | some saleDate =>
        if toDayNumber saleDate < toDayNumber purchaseDate then
          Except.error (lineError n "sale date cannot be before purchase date")
        else
          Except.ok { st with positions := st.positions ++
            [⟨t, cost, qty, salePrice, purchaseDate, saleDate⟩] }

/-- One iteration of the row loop of `parse_positions_csv`
(main.rs:538-718) on the record numbered `n` (1-based): skip empty records;
a marker row enters the details section and discards the header; rows
before the section are skipped; summary rows are skipped; with no active
header the row is tried as a header (adopted or ignored); with an active
header the row goes through `headerRow`. -/
def processRow (n : Nat) (fields : List String) (st : PState) :
    Except String PState :=
  if fields = [] then Except.ok st
  else if containsMarker fields then
    Except.ok { st with inDetails := true, headerIdx := none }
  else if st.inDetails = false ∧ st.headerIdx = none then Except.ok st
  else if isSummarySkip fields then Except.ok st
  else
    match st.headerIdx with
    | none =>
      match detectHeader fields with
      | some h => Except.ok { st with headerIdx := some h }
      | none => Except.ok st
    | some h => headerRow n h fields st

/-- The row loop, numbering records from `n`. -/
def runRowsSt (n : Nat) (st : PState) : List (List String) →
    Except String PState
  | [] => Except.ok st
  | r :: rs =>
    match processRow n r st with
    | Except.error e => Except.error e
    | Except.ok st' => runRowsSt (n + 1) st' rs

/-- Model of `parse_positions_csv` on the record list produced by the CSV
reader (main.rs:538-723): run the row loop from the initial state; an empty
result is the terminal `EmptyResult` error. -/
def parsePositionsModel (rows : List (List String)) :
    Except String (List Position) :=
  match runRowsSt 1 initState rows with
  | Except.error e => Except.error e
  | Except.ok st =>
    if st.positions = [] then Except.error "No rows found to import"
    else Except.ok st.positions

/-! ### Concrete inputs used by the claims

Each file is given as the cell rows the CSV reader produces for the quoted
lines. -/

/-- The section-boundary marker line of the target table. -/
def markerLine : List String := csvCells "Taxable G&L Details"

/-- The header line of spec scenario A. -/
def headerLine : List String := csvCells "Symbol,Cost/Share,Qty,Sale Price,Date,Date"

/-- The data line of spec scenario A. -/
def dataLine : List String := csvCells "AAPL,100,10,110,2024-01-01,2024-02-01"

/-- Scenario A exactly as the claim states it: two rows, no marker. -/
def scenarioANoMarker : List (List String) := [headerLine, dataLine]

/-- Scenario A preceded by the section marker the code requires. -/
def scenarioAWithMarker : List (List String) := [markerLine, headerLine, dataLine]

/-- The single record scenario A produces once the marker is present. -/
def rec1 : Position := ⟨"AAPL", 100, 10, 110, ⟨2024, 1, 1⟩, ⟨2024, 2, 1⟩⟩

/-- A six-column positional row carrying only a ticker. -/
def posOnlyLine1 : List String := csvCells "AAPL,,,,,"

/-- A six-column positional row with all numeric fields and no ticker. -/
def posOnlyLine2 : List String := csvCells ",100,10,110,2024-01-01,2024-02-01"

/-- A positional file with no recognizable header: marker, ticker row,
data row. -/
def c2File : List (List String) := [markerLine, posOnlyLine1, posOnlyLine2]

/-- The loop state right after a marker row. -/
def stAfterMarker : PState := ⟨none, [], true, none⟩

/-- A data row whose sale date precedes its purchase date. -/
def violatingLine : List String := csvCells "AAPL,100,10,110,2024-02-01,2024-01-01"

/-- Marker, header, then the date-order-violating row. -/
def c3BadFile : List (List String) := [markerLine, headerLine, violatingLine]

/-- The header mapping detected for `headerLine`: the six roles in file
order. -/
def h012345 : HeaderIdx := ⟨0, 1, 2, 3, 4, 5⟩

/-- A mid-parse state: inside the section, header active, no ticker yet. -/
def stHeaderActive : PState := ⟨some h012345, [], true, none⟩

/-- A row whose sale-price cell is the missing-value sentinel. -/
def missingSaleLine : List String := csvCells "AAPL,100,10,--,2024-01-01,2024-02-01"

/-- A row whose sale-price cell is present but not numeric. -/
def malformedSaleLine : List String := csvCells "AAPL,100,10,abc,2024-01-01,2024-02-01"

/-- Marker, header, then the row with the unparseable sale price. -/
def c4MalformedFile : List (List String) := [markerLine, headerLine, malformedSaleLine]

/-- Marker, header, the missing-sale-price row, then a good row. -/
def c4MissingFile : List (List String) :=
  [markerLine, headerLine, missingSaleLine, dataLine]

/-- A single-cell row that merely contains the word `total`. -/
def grandTotalRow : List String := ["Grand Total"]

/-- Modelled from the claim's wording for C6: a row is a summary line
exactly when its sole cell, or its first cell, after trimming and
lower-casing, IS the literal `total` or `subtotal` (the sole-cell case is
subsumed by the first-cell case). -/
def claimedSummaryRow (fields : List String) : Bool :=
  match fields.head? with
  | some f =>
    let fl := asciiLower (strTrim f)
    fl == "total" || fl == "subtotal"
  | none => false

/-- The summary-skip rule in the amended wording, as a proposition: a
single-cell row whose trimmed lower-cased cell contains `total` or
`subtotal` as a substring, or any row whose first trimmed lower-cased cell
equals `total` or `subtotal`. -/
def amendedSummaryProp (fields : List String) : Prop :=
  (∃ c, fields = [c] ∧
    (containsSub (asciiLower (strTrim c)) "total" = true ∨
      containsSub (asciiLower (strTrim c)) "subtotal" = true)) ∨
  (∃ c rest, fields = c :: rest ∧
    (asciiLower (strTrim c) = "total" ∨ asciiLower (strTrim c) = "subtotal"))

/-- A file of pure noise: no marker, no header, a summary row. -/
def noiseFile : List (List String) := [csvCells "hello,world", csvCells "Total,,,,,"]

/-- A marker-free file that even contains a recognizable header and a
well-formed data row. -/
def c9File : List (List String) :=
  [headerLine, dataLine, csvCells "MSFT,1,2,3,2024-01-01,2024-01-02"]

/-- A data row with a negative cost and a negative sale price. -/
def negLine : List String := csvCells "AAPL,-5,10,-110,2024-01-01,2024-02-01"

/-- Marker, header, then the negative-valued row. -/
def negFile : List (List String) := [markerLine, headerLine, negLine]

/-- The record the negative-valued row produces. -/
def recNeg : Position := ⟨"AAPL", -5, 10, -110, ⟨2024, 1, 1⟩, ⟨2024, 2, 1⟩⟩

/-- A row that only sets the ticker context (all numerics missing). -/
def tickerOnlyLine : List String := csvCells "AAPL,--,--,--,--,--"

/-- A second section-boundary row later in the file. -/
def marker2Line : List String := csvCells "Taxable G&L Details,continued"

/-- Two sections: the ticker context is set in the first section only, the
complete data row (with an empty ticker cell) sits in the second. -/
def crossSectionFile : List (List String) :=
  [markerLine, headerLine, tickerOnlyLine, marker2Line, headerLine, posOnlyLine2]

/-- A record with negative invested and negative proceeds (implied multiple
2). -/
def c5pos : Position := ⟨"LOSS", -1, 10, -2, ⟨2024, 1, 1⟩, ⟨2024, 1, 1⟩⟩

/-- A record with positive invested and zero proceeds. -/
def c5okPos : Position := ⟨"ZERO", 10, 1, 0, ⟨2024, 1, 1⟩, ⟨2024, 1, 1⟩⟩

/-! ### Helper lemmas -/

theorem dropWsLeft_head_not_ws :
    ∀ (l : List Char) (c : Char) (cs : List Char),
      dropWsLeft l = c :: cs → isWsChar c = false := by
  intro l
  induction l with
  | nil => intro c cs h; simp [dropWsLeft] at h
  | cons a as ih =>
    intro c cs h
    simp only [dropWsLeft] at h
    by_cases ha : isWsChar a = true
    · rw [if_pos ha] at h; exact ih c cs h
    · rw [if_neg ha] at h
      cases h
      simpa using ha

theorem dropWsLeft_noop (l : List Char)
    (h : ∀ (c : Char) (cs : List Char), l = c :: cs → isWsChar c = false) :
    dropWsLeft l = l := by
  cases l with
  | nil => rfl
  | cons a as => simp [dropWsLeft, h a as rfl]

theorem dropWsLeft_isSuffix (l : List Char) : dropWsLeft l <:+ l := by
  induction l with
  | nil => simp [dropWsLeft]
  | cons a as ih =>
    simp only [dropWsLeft]
    by_cases ha : isWsChar a = true
    · rw [if_pos ha]; exact ih.trans (List.suffix_cons a as)
    · rw [if_neg ha]

theorem trimChars_head_not_ws (l : List Char) (c : Char) (cs : List Char)
    (h : trimChars l = c :: cs) : isWsChar c = false := by
  obtain ⟨t, ht⟩ := dropWsLeft_isSuffix ((dropWsLeft l).reverse)
  have hA : dropWsLeft l = (dropWsLeft ((dropWsLeft l).reverse)).reverse ++ t.reverse := by
    have h2 := congrArg List.reverse ht
    simpa using h2.symm
  rw [trimChars] at h
  rw [h] at hA
  exact dropWsLeft_head_not_ws l c (cs ++ t.reverse) (by simpa using hA)

theorem trimChars_last_not_ws (l : List Char) (c : Char) (cs : List Char)
    (h : (trimChars l).reverse = c :: cs) : isWsChar c = false := by
  have h2 : dropWsLeft ((dropWsLeft l).reverse) = c :: cs := by
    simpa [trimChars] using h
  exact dropWsLeft_head_not_ws ((dropWsLeft l).reverse) c cs h2

theorem trimChars_idem (l : List Char) :
    trimChars (trimChars l) = trimChars l := by
  have h1 : dropWsLeft (trimChars l) = trimChars l :=
    dropWsLeft_noop _ (fun c cs h => trimChars_head_not_ws l c cs h)
  have h2 : dropWsLeft ((trimChars l).reverse) = (trimChars l).reverse :=
    dropWsLeft_noop _ (fun c cs h => trimChars_last_not_ws l c cs h)
  show ((dropWsLeft ((dropWsLeft (trimChars l)).reverse)).reverse) = trimChars l
  rw [h1, h2]
  simp

theorem strTrim_idem (s : String) : strTrim (strTrim s) = strTrim s := by
  simp [strTrim, trimChars_idem]

theorem parseTicker_strTrim (s : String) (h : strTrim s ≠ "") :
    parseTicker (strTrim s) = Except.ok (asciiUpper (strTrim s)) := by
  simp only [parseTicker, strTrim_idem]
  rw [if_neg h]

theorem updateTicker_strTrim (n : Nat) (cur : Option String) (s : String) :
    updateTicker n cur (strTrim s) = Except.ok (tickerNext cur (strTrim s)) := by
  rw [updateTicker, tickerNext]
  by_cases hact : tickerCellActive (strTrim s) = true
  · rw [if_pos hact, if_pos hact]
    have hne : strTrim s ≠ "" := by
      intro he
      rw [he] at hact
      simp [tickerCellActive] at hact
    rw [parseTicker_strTrim s hne]
    simp [strTrim_idem]
  · rw [if_neg hact, if_neg hact]

theorem headerRow_eq_core (n : Nat) (h : HeaderIdx) (fields : List String)
    (st : PState) :
    headerRow n h fields st = headerRowCore n h fields
      { st with currentTicker :=
          tickerNext st.currentTicker (strTrim (cellAt fields h.ticker)) } := by
  simp only [headerRow, updateTicker_strTrim]

theorem tickerNext_isSome (cur : Option String) (raw : String)
    (h : cur.isSome = true) : (tickerNext cur raw).isSome = true := by
  rw [tickerNext]
  split
  · rfl
  · exact h

theorem headerRowCore_ticker (n : Nat) (h : HeaderIdx) (fields : List String)
    (st1 st' : PState) (hok : headerRowCore n h fields st1 = Except.ok st') :
    st'.currentTicker = st1.currentTicker := by
  rw [headerRowCore] at hok
  split at hok
  · cases hok; rfl
  · split at hok
    · cases hok; rfl
    · split at hok
      · cases hok
      · split at hok
        · cases hok
        · split at hok
          · cases hok
          · split at hok
            · cases hok
            · split at hok
              · cases hok
              · split at hok
                · cases hok
                · cases hok; rfl

theorem headerRowCore_positions (n : Nat) (h : HeaderIdx)
    (fields : List String) (st1 st' : PState)
    (hok : headerRowCore n h fields st1 = Except.ok st') :
    st'.positions = st1.positions ∨
      ∃ p, st'.positions = st1.positions ++ [p] ∧
        toDayNumber p.purchase_date ≤ toDayNumber p.sale_date := by
  rw [headerRowCore] at hok
  split at hok
  · cases hok; exact Or.inl rfl
  · split at hok
    · cases hok; exact Or.inl rfl
    · split at hok
      · cases hok
      · split at hok
        · cases hok
        · split at hok
          · cases hok
          · split at hok
            · cases hok
            · split at hok
              · cases hok
              · split at hok
                · cases hok
                · case _ hdate =>
                  cases hok
                  refine Or.inr ⟨_, rfl, ?_⟩
                  dsimp only
                  omega

theorem processRow_positions (n : Nat) (fields : List String)
    (st st' : PState) (hok : processRow n fields st = Except.ok st') :
    st'.positions = st.positions ∨
      ∃ p, st'.positions = st.positions ++ [p] ∧
        toDayNumber p.purchase_date ≤ toDayNumber p.sale_date := by
  rw [processRow] at hok
  split at hok
  · cases hok; exact Or.inl rfl
  · split at hok
    · cases hok; exact Or.inl rfl
    · split at hok
      · cases hok; exact Or.inl rfl
      · split at hok
        · cases hok; exact Or.inl rfl
        · split at hok
          · split at hok
            · cases hok; exact Or.inl rfl
            · cases hok; exact Or.inl rfl
          · rename_i hh hheq
            rw [headerRow_eq_core] at hok
            have h2 := headerRowCore_positions n hh fields _ st' hok
            exact h2

theorem processRow_ticker_isSome (n : Nat) (fields : List String)
    (st st' : PState) (hok : processRow n fields st = Except.ok st')
    (hsome : st.currentTicker.isSome = true) :
    st'.currentTicker.isSome = true := by
  rw [processRow] at hok
  split at hok
  · cases hok; exact hsome
  · split at hok
    · cases hok; exact hsome
    · split at hok
      · cases hok; exact hsome
      · split at hok
        · cases hok; exact hsome
        · split at hok
          · split at hok
            · cases hok; exact hsome
            · cases hok; exact hsome
          · rw [headerRow_eq_core] at hok
            have h2 := headerRowCore_ticker _ _ _ _ _ hok
            rw [h2]
            exact tickerNext_isSome _ _ hsome

theorem runRowsSt_positions (rows : List (List String)) :
    ∀ (n : Nat) (st st' : PState),
      runRowsSt n st rows = Except.ok st' →
      (∀ p ∈ st.positions,
        toDayNumber p.purchase_date ≤ toDayNumber p.sale_date) →
      ∀ p ∈ st'.positions,
        toDayNumber p.purchase_date ≤ toDayNumber p.sale_date := by
  induction rows with
  | nil =>
    intro n st st' hok hinv
    cases hok
    exact hinv
  | cons r rs ih =>
    intro n st st' hok hinv
    rw [runRowsSt] at hok
    split at hok
    · cases hok
    · case _ st1 hstep =>
      refine ih (n + 1) st1 st' hok ?_
      intro p hp
      rcases processRow_positions n r st st1 hstep with heq | ⟨q, heq, hq⟩
      · exact hinv p (heq ▸ hp)
      · rw [heq] at hp
        rcases List.mem_append.mp hp with hmem | hmem
        · exact hinv p hmem
        · rw [List.mem_singleton.mp hmem]
          exact hq

theorem runRowsSt_append (pre : List (List String)) :
    ∀ (n : Nat) (st : PState) (rest : List (List String)),
      runRowsSt n st (pre ++ rest) =
        match runRowsSt n st pre with
        | Except.error e => Except.error e
        | Except.ok st' => runRowsSt (n + pre.length) st' rest := by
  induction pre with
  | nil =>
    intro n st rest
    simp [runRowsSt]
  | cons r rs ih =>
    intro n st rest
    rw [List.cons_append, runRowsSt, runRowsSt]
    split
    · rfl
    · rw [ih]
      have hn : n + 1 + rs.length = n + (r :: rs).length := by
        simp
        omega
      rw [hn]

theorem processRow_marker (n : Nat) (fields : List String) (st : PState)
    (hne : fields ≠ []) (hm : containsMarker fields = true) :
    processRow n fields st =
      Except.ok { st with inDetails := true, headerIdx := none } := by
  rw [processRow, if_neg hne, if_pos hm]

theorem processRow_header (n : Nat) (fields : List String) (st : PState)
    (hh : HeaderIdx) (hne : fields ≠ []) (hmk : containsMarker fields = false)
    (hsum : isSummarySkip fields = false) (hhdr : st.headerIdx = some hh) :
    processRow n fields st = headerRow n hh fields st := by
  rw [processRow, if_neg hne, if_neg (by simp [hmk]), if_neg (by simp [hhdr]),
    if_neg (by simp [hsum]), hhdr]

theorem processRow_skip_summary (n : Nat) (fields : List String) (st : PState)
    (hne : fields ≠ []) (hmk : containsMarker fields = false)
    (hgate : st.inDetails = true ∨ st.headerIdx ≠ none)
    (hsum : isSummarySkip fields = true) :
    processRow n fields st = Except.ok st := by
  have hgate' : ¬(st.inDetails = false ∧ st.headerIdx = none) := by
    intro hcon
    rcases hgate with h1 | h1
    · simp [h1] at hcon
    · exact h1 hcon.2
  rw [processRow, if_neg hne, if_neg (by simp [hmk]), if_neg hgate',
    if_pos hsum]

theorem processRow_initState (n : Nat) (fields : List String)
    (hmk : containsMarker fields = false) :
    processRow n fields initState = Except.ok initState := by
  rw [processRow]
  by_cases hne : fields = []
  · rw [if_pos hne]
  · rw [if_neg hne, if_neg (by simp [hmk]), if_pos ⟨rfl, rfl⟩]

theorem runRowsSt_no_marker (rows : List (List String)) :
    ∀ n : Nat, (∀ f ∈ rows, containsMarker f = false) →
      runRowsSt n initState rows = Except.ok initState := by
  induction rows with
  | nil => intro n _; rfl
  | cons r rs ih =>
    intro n hall
    rw [runRowsSt, processRow_initState n r (hall r (List.mem_cons_self r rs))]
    exact ih (n + 1) (fun f hf => hall f (List.mem_cons_of_mem r hf))

theorem headerRowCore_missing (n : Nat) (hh : HeaderIdx)
    (fields : List String) (st1 : PState)
    (hm : missingAny hh fields = true) :
    headerRowCore n hh fields st1 = Except.ok st1 := by
  rw [headerRowCore, if_pos hm]

theorem headerRowCore_bad_sale_price (n : Nat) (hh : HeaderIdx)
    (fields : List String) (st1 : PState) (t : String) (c q : ℚ)
    (hm : missingAny hh fields = false)
    (ht : st1.currentTicker = some t)
    (hc : parseNumber (cellAt fields hh.cost) = some c)
    (hq : parseNumber (cellAt fields hh.qty) = some q)
    (hs : parseNumber (cellAt fields hh.sale_price) = none) :
    headerRowCore n hh fields st1 =
      Except.error (lineError n (invalidNumberMsg "sale price")) := by
  rw [headerRowCore, if_neg (by simp [hm]), ht, hc, hq, hs]

theorem headerRowCore_date_violation (n : Nat) (hh : HeaderIdx)
    (fields : List String) (st1 : PState) (t : String) (c q sp : ℚ)
    (pd sd : NDate)
    (hm : missingAny hh fields = false)
    (ht : st1.currentTicker = some t)
    (hc : parseNumber (cellAt fields hh.cost) = some c)
    (hq : parseNumber (cellAt fields hh.qty) = some q)
    (hs : parseNumber (cellAt fields hh.sale_price) = some sp)
    (hbd : parseDateAny (cellAt fields hh.buy_date) = some pd)
    (hsd : parseDateAny (cellAt fields hh.sale_date) = some sd)
    (hlt : toDayNumber sd < toDayNumber pd) :
    headerRowCore n hh fields st1 =
      Except.error (lineError n "sale date cannot be before purchase date") := by
  rw [headerRowCore, if_neg (by simp [hm]), ht, hc, hq, hs, hbd, hsd]
  simp only [if_pos hlt]

theorem headerRowCore_emit (n : Nat) (hh : HeaderIdx)
    (fields : List String) (st1 : PState) (t : String) (c q sp : ℚ)
    (pd sd : NDate)
    (hm : missingAny hh fields = false)
    (ht : st1.currentTicker = some t)
    (hc : parseNumber (cellAt fields hh.cost) = some c)
    (hq : parseNumber (cellAt fields hh.qty) = some q)
    (hs : parseNumber (cellAt fields hh.sale_price) = some sp)
    (hbd : parseDateAny (cellAt fields hh.buy_date) = some pd)
    (hsd : parseDateAny (cellAt fields hh.sale_date) = some sd)
    (hge : ¬(toDayNumber sd < toDayNumber pd)) :
    headerRowCore n hh fields st1 =
      Except.ok { st1 with positions := st1.positions ++ [⟨t, c, q, sp, pd, sd⟩] } := by
  rw [headerRowCore, if_neg (by simp [hm]), ht, hc, hq, hs, hbd, hsd]
  simp only [if_neg hge]

/-! ### Claims -/

/-- C1 counterexample: on the two-row file of the claim (header then data
row, no section marker), `parse_positions_csv` does not return `Ok` — every
row before the `taxable g&l details` marker is skipped (main.rs:553-556),
so the call ends with the empty-result error. -/
theorem C1_counterexample :
    parsePositionsModel scenarioANoMarker =
      Except.error "No rows found to import" := by
  decide

/-- C1 (amended): once the two rows are preceded by a section-marker line,
the parse returns `Ok` with exactly one record whose derived values are
`invested = 1000`, `proceeds = 1100`, `profit = 100`, `return_pct = 1/10`
and `days_held = 31`. -/
theorem C1_theorem :
    parsePositionsModel scenarioAWithMarker = Except.ok [rec1] ∧
    rec1.invested = 1000 ∧ rec1.proceeds = 1100 ∧ rec1.roi_value = 100 ∧
    rec1.roi_pct = 1 / 10 ∧ rec1.days_held = 31 := by
  refine ⟨by decide, by decide, by decide, by decide, by decide, by decide⟩

/-- C2 (code bug): the positional fallback of main.rs:659-718 is dead code,
so a file with no recognizable header yields the empty-result error even
when it holds well-formed positional rows; the transcribed fallback handler
itself would have carried the ticker context from the first positional row
and emitted the record of the second, as the claim describes. -/
theorem C2_theorem :
    parsePositionsModel c2File = Except.error "No rows found to import" ∧
    fallbackRow 2 posOnlyLine1 stAfterMarker =
      Except.ok ⟨none, [], true, some "AAPL"⟩ ∧
    fallbackRow 3 posOnlyLine2 ⟨none, [], true, some "AAPL"⟩ =
      Except.ok ⟨none, [rec1], true, some "AAPL"⟩ := by
  refine ⟨by decide, by decide, by decide⟩

/-- C7: a parse that returns `Ok` never returns an empty list, and a run of
the row loop that completes with zero accumulated records makes the call
fail with the `EmptyResult` message `"No rows found to import"`
(main.rs:720-723). -/
theorem C7_theorem (rows : List (List String)) :
    (∀ recs, parsePositionsModel rows = Except.ok recs → recs ≠ []) ∧
    (∀ st, runRowsSt 1 initState rows = Except.ok st → st.positions = [] →
      parsePositionsModel rows = Except.error "No rows found to import") := by
  constructor
  · intro recs hok
    rw [parsePositionsModel] at hok
    split at hok
    · cases hok
    · case _ st hrun =>
      split at hok
      · cases hok
      · case _ hne =>
        cases hok
        exact hne
  · intro st hrun hemp
    rw [parsePositionsModel, hrun]
    simp [hemp]

/-- C7 witness: the all-noise two-row file completes with zero records and
the call returns the empty-result error. -/
theorem C7_witness :
    parsePositionsModel noiseFile = Except.error "No rows found to import" :=
  (C7_theorem noiseFile).2 initState (by decide) (by decide)

/-- C9: a file in which no row contains the marker phrase
`taxable g&l details` (cells joined by spaces, lower-cased) leaves the loop
in its initial state — every row is skipped by main.rs:553-556 — so the
call returns the empty-result error and never `Ok`. -/
theorem C9_theorem (rows : List (List String))
    (hall : ∀ f ∈ rows, containsMarker f = false) :
    parsePositionsModel rows = Except.error "No rows found to import" := by
  rw [parsePositionsModel, runRowsSt_no_marker rows 1 hall]
  simp [initState]

/-- C9 witness: a marker-free file holding a recognizable header row and
two well-formed data rows still returns the empty-result error. -/
theorem C9_witness :
    parsePositionsModel c9File = Except.error "No rows found to import" :=
  C9_theorem c9File (by decide)

/-- C3: (a) whenever the parse returns `Ok`, every returned record satisfies
`purchase_date <= sale_date` (chronologically, via day numbers); (b) any row
the loop reaches whose five required fields parse and whose sale date
precedes its purchase date aborts the whole call with that row's 1-based
line-numbered date-order error (main.rs:641-645). -/
theorem C3_theorem :
    (∀ (rows : List (List String)) (recs : List Position),
      parsePositionsModel rows = Except.ok recs →
      ∀ p ∈ recs, toDayNumber p.purchase_date ≤ toDayNumber p.sale_date) ∧
    (∀ (pre post : List (List String)) (row : List String) (st : PState) (hh : HeaderIdx)
      (t : String) (c q sp : ℚ) (pd sd : NDate),
      runRowsSt 1 initState pre = Except.ok st →
      st.headerIdx = some hh → row ≠ [] → containsMarker row = false →
      isSummarySkip row = false → missingAny hh row = false →
      tickerNext st.currentTicker (strTrim (cellAt row hh.ticker)) = some t →
      parseNumber (cellAt row hh.cost) = some c →
      parseNumber (cellAt row hh.qty) = some q →
      parseNumber (cellAt row hh.sale_price) = some sp →
      parseDateAny (cellAt row hh.buy_date) = some pd →
      parseDateAny (cellAt row hh.sale_date) = some sd →
      toDayNumber sd < toDayNumber pd →
      parsePositionsModel (pre ++ row :: post) =
        Except.error
          (lineError (pre.length + 1) "sale date cannot be before purchase date")) := by
  constructor
  · intro rows recs hok
    rw [parsePositionsModel] at hok
    split at hok
    · cases hok
    · case _ st hrun =>
      split at hok
      · cases hok
      · cases hok
        exact runRowsSt_positions rows 1 initState st hrun
          (fun p hp => by simp [initState] at hp)
  · intro pre post row st hh t c q sp pd sd hpre hhdr hne hmk hsum hmiss ht
      hc hq hs hbd hsd hlt
    have hrow : processRow (pre.length + 1) row st =
        Except.error
          (lineError (pre.length + 1) "sale date cannot be before purchase date") := by
      rw [processRow_header (pre.length + 1) row st hh hne hmk hsum hhdr,
        headerRow_eq_core]
      exact headerRowCore_date_violation (pre.length + 1) hh row _ t c q sp pd sd
        hmiss ht hc hq hs hbd hsd hlt
    rw [parsePositionsModel, runRowsSt_append pre 1 initState (row :: post), hpre]
    dsimp only
    rw [runRowsSt, Nat.add_comm 1 pre.length, hrow]

/-- C3 witness: the scenario-A record satisfies the date invariant, and a
concrete file whose third row has sale date 2024-01-01 before purchase date
2024-02-01 aborts with the line-3 date-order error. -/
theorem C3_witness :
    toDayNumber rec1.purchase_date ≤ toDayNumber rec1.sale_date ∧
    parsePositionsModel c3BadFile =
      Except.error "Line 3: sale date cannot be before purchase date" := by
  constructor
  · exact C3_theorem.1 scenarioAWithMarker [rec1] (by decide) rec1 (by simp)
  · have h2 := C3_theorem.2 [markerLine, headerLine] [] violatingLine
      stHeaderActive h012345 "AAPL" 100 10 110 ⟨2024, 2, 1⟩ ⟨2024, 1, 1⟩
      (by decide) (by decide) (by decide) (by decide) (by decide) (by decide)
      (by decide) (by decide) (by decide) (by decide) (by decide) (by decide)
      (by decide)
    rw [show c3BadFile = [markerLine, headerLine] ++ violatingLine :: [] from rfl, h2]
    decide

/-- C4: under an active header, (i) a row with any required field missing
(empty after trim or the sentinel `--`) is skipped with no error — only the
ticker context may change (main.rs:612-623); (ii) a row whose required
cells are all present but whose sale-price cell fails numeric parsing
aborts with the line-numbered `Invalid sale price` error (main.rs:634-635);
(iii) concretely, the missing-sale-price file still parses its good row,
and the `abc` sale-price file aborts the whole call at line 3. -/
theorem C4_theorem :
    (∀ (n : Nat) (st : PState) (hh : HeaderIdx) (fields : List String),
      st.headerIdx = some hh → fields ≠ [] → containsMarker fields = false →
      isSummarySkip fields = false → missingAny hh fields = true →
      processRow n fields st =
        Except.ok
          { st with
            currentTicker := tickerNext st.currentTicker (strTrim (cellAt fields hh.ticker)) }) ∧
    (∀ (n : Nat) (st : PState) (hh : HeaderIdx) (fields : List String)
      (t : String) (c q : ℚ),
      st.headerIdx = some hh → fields ≠ [] → containsMarker fields = false →
      isSummarySkip fields = false → missingAny hh fields = false →
      tickerNext st.currentTicker (strTrim (cellAt fields hh.ticker)) = some t →
      parseNumber (cellAt fields hh.cost) = some c →
      parseNumber (cellAt fields hh.qty) = some q →
      parseNumber (cellAt fields hh.sale_price) = none →
      processRow n fields st =
        Except.error (lineError n (invalidNumberMsg "sale price"))) ∧
    parsePositionsModel c4MissingFile = Except.ok [rec1] ∧
    parsePositionsModel c4MalformedFile =
      Except.error "Line 3: Invalid sale price" := by
  refine ⟨?_, ?_, by decide, by decide⟩
  · intro n st hh fields hhdr hne hmk hsum hmiss
    rw [processRow_header n fields st hh hne hmk hsum hhdr, headerRow_eq_core]
    exact headerRowCore_missing n hh fields _ hmiss
  · intro n st hh fields t c q hhdr hne hmk hsum hmiss ht hc hq hs
    rw [processRow_header n fields st hh hne hmk hsum hhdr, headerRow_eq_core]
    exact headerRowCore_bad_sale_price n hh fields _ t c q hmiss ht hc hq hs

/-- C4 witness: the sentinel sale-price row is skipped (only the ticker
context changes), and the `abc` sale-price row aborts with the line-3
`Invalid sale price` error. -/
theorem C4_witness :
    processRow 3 missingSaleLine stHeaderActive =
      Except.ok ⟨some h012345, [], true, some "AAPL"⟩ ∧
    processRow 3 malformedSaleLine stHeaderActive =
      Except.error "Line 3: Invalid sale price" := by
  constructor
  · rw [C4_theorem.1 3 stHeaderActive h012345 missingSaleLine (by decide)
      (by decide) (by decide) (by decide) (by decide)]
    decide
  · rw [C4_theorem.2.1 3 stHeaderActive h012345 malformedSaleLine "AAPL" 100 10
      (by decide) (by decide) (by decide) (by decide) (by decide) (by decide)
      (by decide) (by decide) (by decide)]
    decide

/-- C8 (amended): the emission path applies no sign constraint — under an
active header, a row whose five required cells parse (to any rational
values, negative included) and whose dates are ordered is appended exactly
as parsed (main.rs:630-655); concretely, a file whose cost cell is `-5` and
sale-price cell is `-110` returns `Ok` with those negative values. -/
theorem C8_theorem :
    (∀ (n : Nat) (st : PState) (hh : HeaderIdx) (fields : List String)
      (t : String) (c q sp : ℚ) (pd sd : NDate),
      st.headerIdx = some hh → fields ≠ [] → containsMarker fields = false →
      isSummarySkip fields = false → missingAny hh fields = false →
      tickerNext st.currentTicker (strTrim (cellAt fields hh.ticker)) = some t →
      parseNumber (cellAt fields hh.cost) = some c →
      parseNumber (cellAt fields hh.qty) = some q →
      parseNumber (cellAt fields hh.sale_price) = some sp →
      parseDateAny (cellAt fields hh.buy_date) = some pd →
      parseDateAny (cellAt fields hh.sale_date) = some sd →
      ¬(toDayNumber sd < toDayNumber pd) →
      processRow n fields st =
        Except.ok
          { st with
            currentTicker := some t
            positions := st.positions ++ [⟨t, c, q, sp, pd, sd⟩] }) ∧
    parsePositionsModel negFile = Except.ok [recNeg] := by
  refine ⟨?_, by decide⟩
  intro n st hh fields t c q sp pd sd hhdr hne hmk hsum hmiss ht hc hq hs
    hbd hsd hge
  rw [processRow_header n fields st hh hne hmk hsum hhdr, headerRow_eq_core]
  rw [headerRowCore_emit n hh fields _ t c q sp pd sd hmiss ht hc hq hs hbd
    hsd hge]
  rw [ht]

/-- C8 witness: the negative-valued row is emitted as parsed, with
`cost_per_share = -5` and `sale_price = -110`. -/
theorem C8_witness :
    processRow 3 negLine stHeaderActive =
      Except.ok ⟨some h012345, [recNeg], true, some "AAPL"⟩ := by
  rw [C8_theorem.1 3 stHeaderActive h012345 negLine "AAPL" (-5) 10 (-110)
    ⟨2024, 1, 1⟩ ⟨2024, 2, 1⟩ (by decide) (by decide) (by decide) (by decide)
    (by decide) (by decide) (by decide) (by decide) (by decide) (by decide)
    (by decide) (by decide)]
  decide

/-- C8 counterexample: an input file exists on which the parse returns `Ok`
holding a record with negative `cost_per_share` and negative `sale_price`,
so the claimed non-negativity invariant fails. -/
theorem C8_counterexample :
    parsePositionsModel negFile = Except.ok [recNeg] ∧
    recNeg.cost_per_share < 0 ∧ recNeg.sale_price < 0 := by
  refine ⟨by decide, by decide, by decide⟩

/-- C10: (i) a marker row resets the header to `none` and sets the section
flag while leaving the carried ticker (and everything else) unchanged
(main.rs:546-551); (ii) one loop step never turns a set ticker context into
`none`; (iii) concretely, a complete data row with an empty ticker cell in
a second section is attributed to the ticker set in the first section. -/
theorem C10_theorem :
    (∀ (n : Nat) (st : PState) (fields : List String), fields ≠ [] →
      containsMarker fields = true →
      processRow n fields st =
        Except.ok { st with inDetails := true, headerIdx := none }) ∧
    (∀ (n : Nat) (fields : List String) (st st' : PState),
      processRow n fields st = Except.ok st' →
      st.currentTicker.isSome = true → st'.currentTicker.isSome = true) ∧
    parsePositionsModel crossSectionFile = Except.ok [rec1] := by
  refine ⟨?_, ?_, by decide⟩
  · intro n st fields hne hm
    exact processRow_marker n fields st hne hm
  · intro n fields st st' hok hsome
    exact processRow_ticker_isSome n fields st st' hok hsome

/-- C10 witness: a second marker row keeps the ticker `AAPL` while clearing
the header, and a step from a ticker-carrying state keeps the context set. -/
theorem C10_witness :
    processRow 4 marker2Line (⟨some h012345, [], true, some "AAPL"⟩ : PState) =
      Except.ok ⟨none, [], true, some "AAPL"⟩ ∧
    (⟨none, [], true, some "AAPL"⟩ : PState).currentTicker.isSome = true := by
  constructor
  · rw [C10_theorem.1 4 ⟨some h012345, [], true, some "AAPL"⟩ marker2Line
      (by decide) (by decide)]
  · exact C10_theorem.2.1 4 marker2Line ⟨some h012345, [], true, some "AAPL"⟩
      ⟨none, [], true, some "AAPL"⟩ (by decide) (by decide)

/-- C5 counterexample: a record with `proceeds <= 0` and `invested <= 0`
(cost `-1`, quantity `10`, sale price `-2`) has implied multiple
`(-20)/(-10) = 2 > 0`, so `annualized_roi` takes the `powf` branch and
returns `2 ^ 365 - 1 > 0`, not `-1` — refuting the claim that
`proceeds <= 0 ∨ invested <= 0` forces the `-1` return. -/
theorem C5_counterexample :
    (c5pos.proceeds ≤ 0 ∧ c5pos.invested ≤ 0) ∧ c5pos.annualized_roi ≠ -1 := by
  refine ⟨⟨by decide, by decide⟩, ?_⟩
  have hp : c5pos.proceeds = -20 := by decide
  have hi : c5pos.invested = -10 := by decide
  have hd : c5pos.days_held = 1 := by decide
  rw [Position.annualized_roi, hp, hi, hd]
  have hm : (((-20 : ℚ) : ℝ) / ((-10 : ℚ) : ℝ)) = 2 := by push_cast; norm_num
  rw [hm]
  have he : ((1 : ℝ) / (((1 : Int) : ℝ) / 365)) = 365 := by push_cast; norm_num
  rw [he, if_neg (by norm_num)]
  have hpow : (0 : ℝ) < (2 : ℝ) ^ (365 : ℝ) :=
    Real.rpow_pos_of_pos (by norm_num) _
  intro hcon
  have h0 : (2 : ℝ) ^ (365 : ℝ) = 0 := by linarith
  linarith

/-- C5 (amended): `annualized_roi` returns exactly `-1` whenever the
implied multiple `proceeds/invested` is non-positive and `invested` is
non-zero (the region where exact rational division agrees with the `f64`
division of the source); in particular whenever `invested > 0` and
`proceeds <= 0`. -/
theorem C5_theorem (p : Position) (_h1 : p.invested ≠ 0)
    (h2 : p.proceeds / p.invested ≤ 0) : p.annualized_roi = -1 := by
  have h3 : ((p.proceeds / p.invested : ℚ) : ℝ) ≤ 0 := by exact_mod_cast h2
  have hr : ((p.proceeds : ℝ) / (p.invested : ℝ)) ≤ 0 := by
    rwa [Rat.cast_div] at h3
  rw [Position.annualized_roi, if_pos hr]

/-- C5 witness: a record with invested `10` and proceeds `0` has
`annualized_roi = -1`. -/
theorem C5_witness :
    (c5okPos.invested ≠ 0 ∧ c5okPos.proceeds / c5okPos.invested ≤ 0) ∧
    c5okPos.annualized_roi = -1 :=
  ⟨⟨by decide, by decide⟩, C5_theorem c5okPos (by decide) (by decide)⟩

/-- C6 counterexample: the single-cell row `Grand Total` — whose cell is
not the literal `total` or `subtotal` — is nonetheless skipped by the
summary rule, because for single-cell rows the code tests substring
containment (main.rs:559-564); the row leaves the state untouched even
though the header branch would have updated the ticker context. -/
theorem C6_counterexample :
    isSummarySkip grandTotalRow = true ∧
    claimedSummaryRow grandTotalRow = false ∧
    processRow 3 grandTotalRow stHeaderActive = Except.ok stHeaderActive := by
  refine ⟨by decide, by decide, by decide⟩

/-- C6 (amended): a row is skipped by the summary rule exactly when it is a
single-cell row whose trimmed lower-cased cell contains `total` or
`subtotal` as a substring, or a row whose first trimmed lower-cased cell
equals `total` or `subtotal`; and inside the section any such row is
skipped with the state unchanged. -/
theorem C6_theorem :
    (∀ fields : List String,
      isSummarySkip fields = true ↔ amendedSummaryProp fields) ∧
    (∀ (n : Nat) (st : PState) (fields : List String), fields ≠ [] →
      containsMarker fields = false →
      (st.inDetails = true ∨ st.headerIdx ≠ none) →
      isSummarySkip fields = true → processRow n fields st = Except.ok st) := by
  constructor
  · intro fields
    match fields with
    | [] => simp [isSummarySkip, amendedSummaryProp]
    | [f] =>
      simp [isSummarySkip, amendedSummaryProp, Bool.or_eq_true, beq_iff_eq]
    | f :: g :: rest =>
      simp [isSummarySkip, amendedSummaryProp, Bool.or_eq_true, beq_iff_eq]
  · intro n st fields hne hmk hgate hsum
    exact processRow_skip_summary n fields st hne hmk hgate hsum

/-- C6 witness: the characterization applied to the row `Subtotal,1,2`, and
the skip applied to a `Total,,,,,` row inside the section. -/
theorem C6_witness :
    (isSummarySkip (csvCells "Subtotal,1,2") = true ↔
      amendedSummaryProp (csvCells "Subtotal,1,2")) ∧
    processRow 2 (csvCells "Total,,,,,") stHeaderActive =
      Except.ok stHeaderActive := by
  constructor
  · exact C6_theorem.1 (csvCells "Subtotal,1,2")
  · exact C6_theorem.2 2 stHeaderActive (csvCells "Total,,,,,") (by decide)
      (by decide) (Or.inl (by decide)) (by decide)
